import Mathlib

/-!
Verification of the LDAP authentication core of the backstage-ldap-auth
repository (plugins/ldap-auth-backend).  The definitions below are a shallow
embedding of `ldapClient.ts` (authenticateWithLdap and its helpers
escapeLdapFilter, extractStringAttribute, extractStringArrayAttribute,
extractAllAttributes) and of the error-mapping part of `provider.ts`
(handleCredentialAuth).  The directory server is modelled as an oracle
(`LdapDirectory`) answering bind, search and unbind requests; an execution is
a result together with a trace of the outbound calls and log notices it made.
-/

/-! ## Filter escaping (escapeLdapFilter, ldapClient.ts lines 122-130) -/

/-- The character class of the regex `/[\\*()"\0/]/g` in `escapeLdapFilter`. -/
def isLdapFilterSpecial (c : Char) : Bool :=
  c == '\\' || c == '*' || c == '(' || c == ')' || c == '"' || c == '\x00' || c == '/'

/-- JS `String.prototype.padStart(2, "0")` on a list of characters. -/
def padStartTwoZero (s : List Char) : List Char :=
  if s.length < 2 then List.replicate (2 - s.length) '0' ++ s else s

/-- The replacement `"\\" + char.charCodeAt(0).toString(16).padStart(2, "0")`
for one character matched by the regex (JS `Number.prototype.toString(16)`
produces lowercase hex digits without leading zeros, as `Nat.toDigits 16`). -/
def escapeLdapFilterChar (c : Char) : List Char :=
  if isLdapFilterSpecial c then '\\' :: padStartTwoZero (Nat.toDigits 16 c.toNat)
  else [c]

/-- `escapeLdapFilter` from ldapClient.ts: every character matched by
`/[\\*()"\0/]/g` is replaced by a backslash and its two-digit hex code. -/
def escapeLdapFilter (input : String) : String :=
  String.mk (List.flatten (input.toList.map escapeLdapFilterChar))

/-! ## Filter construction (ldapClient.ts lines 64-67)

`config.searchFilter.replace(/\{\{username\}\}/g, escapeLdapFilter(username))`
passes the escaped username as a *string* replacement, so ECMAScript
GetSubstitution applies to it: in the replacement string `$$` denotes `$`,
`$&` the matched text, a dollar and a backtick the part of the subject before
the match, and a dollar and an apostrophe the part after it; any other `$` is
literal (the regex has no capture groups and no named groups). -/

/-- The characters of the placeholder `{{username}}`. -/
def usernamePlaceholder : List Char := "\x7b\x7busername\x7d\x7d".toList

/-- ECMAScript GetSubstitution for a string replacement with no capture
groups: `pre` and `post` are the parts of the original subject before and
after the match, `matched` the matched text; the fourth argument is the
replacement string being scanned. -/
def getSubstitution (pre post matched : List Char) : List Char → List Char
  | [] => []
  | '$' :: '$' :: rest => '$' :: getSubstitution pre post matched rest
  | '$' :: '&' :: rest => matched ++ getSubstitution pre post matched rest
  | '$' :: '`' :: rest => pre ++ getSubstitution pre post matched rest
  | '$' :: '\'' :: rest => post ++ getSubstitution pre post matched rest
  | c :: rest => c :: getSubstitution pre post matched rest

/-- One left-to-right pass of `subject.replace(/\{\{username\}\}/g, repl)`:
`pre` is the already-consumed prefix of the original subject (used by the
dollar-backtick pattern), `rest` the remainder; matches are not rescanned.
The fuel is at least `rest.length`, and each step consumes a character. -/
def replaceMatches (repl : List Char) : Nat → List Char → List Char → List Char
  | 0, _, _ => []
  | fuel + 1, pre, rest =>
    if usernamePlaceholder.isPrefixOf rest then
      getSubstitution pre (rest.drop usernamePlaceholder.length) usernamePlaceholder repl ++
        replaceMatches repl fuel (pre ++ usernamePlaceholder)
          (rest.drop usernamePlaceholder.length)
    else
      match rest with
      | [] => []
      | c :: cs => c :: replaceMatches repl fuel (pre ++ [c]) cs

/-- `subject.replace(/\{\{username\}\}/g, repl)` with `repl` a plain string,
including the ECMAScript dollar-substitution in the replacement. -/
def jsReplaceUsername (subject repl : String) : String :=
  String.mk (replaceMatches repl.toList subject.toList.length [] subject.toList)

/-- The filter built at ldapClient.ts lines 64-67 from the template and the
submitted username. -/
def buildSearchFilter (template username : String) : String :=
  jsReplaceUsername template (escapeLdapFilter username)

/-- Occurrences of a character in a string. -/
def countChar (c : Char) (s : String) : Nat := s.toList.count c

/-! ## Data model (types.ts) and directory values

Directory attribute values reach the client as dynamically typed data; the
extraction helpers only ever test `typeof v === "string"` and
`Array.isArray(v)` on them and on their elements, so a value is modelled as a
string, an array of elements each of which is or is not a string, or some
other non-string non-array value (number, Buffer, nested array, ...). -/

/-- An element of an array-valued directory attribute. -/
inductive LdapAttrElem where
  | str : String → LdapAttrElem
  | nonString : LdapAttrElem
deriving DecidableEq

/-- A directory attribute value as seen by the JS helpers. -/
inductive LdapValue where
  | str : String → LdapValue
  | arr : List LdapAttrElem → LdapValue
  | other : LdapValue
deriving DecidableEq

/-- `value.filter((v): v is string => typeof v === "string")`. -/
def filterStrings (vs : List LdapAttrElem) : List String :=
  vs.filterMap (fun v => match v with
    | LdapAttrElem.str s => some s
    | LdapAttrElem.nonString => none)

/-- One entry of `searchEntries` as returned by ldapts: an object holding the
string `dn` plus the attribute map. -/
structure SearchEntry where
  dn : String
  attrs : List (String × LdapValue)
deriving DecidableEq

/-- Property access `entry[attribute]` on a search entry: the entry object
carries `dn` as an ordinary string-valued key next to the attributes. -/
def entryGet (entry : SearchEntry) (attrName : String) : Option LdapValue :=
  if attrName = "dn" then some (LdapValue.str entry.dn)
  else List.lookup attrName entry.attrs

/-- `LdapClientConfig` from types.ts; `bindDN` and `bindCredentials` are the
optional fields, `tls.rejectUnauthorized` is flattened into one field. -/
structure LdapClientConfig where
  url : String
  bindDN : Option String
  bindCredentials : Option String
  searchBase : String
  usernameAttribute : String
  searchFilter : String
  userAttributes : List String
  tlsRejectUnauthorized : Bool
deriving DecidableEq

/-- A value stored in the `attributes` record of `LdapUserInfo`
(`string | string[]`; the code never stores `undefined`). -/
inductive AttrVal where
  | one : String → AttrVal
  | many : List String → AttrVal
deriving DecidableEq

/-- `LdapUserInfo` from types.ts. -/
structure LdapUserInfo where
  dn : String
  uid : String
  displayName : Option String
  email : Option String
  memberOf : Option (List String)
  attributes : List (String × AttrVal)
deriving DecidableEq

/-! ## Attribute extraction helpers (ldapClient.ts lines 132-174) -/

/-- `extractStringAttribute`: the value itself when it is a string, its first
element when it is an array whose first element is a string, else nothing. -/
def extractStringAttribute (entry : SearchEntry) (attrName : String) : Option String :=
  match entryGet entry attrName with
  | some (LdapValue.str s) => some s
  | some (LdapValue.arr (LdapAttrElem.str s :: _)) => some s
  | _ => none

/-- `extractStringArrayAttribute`: an array is filtered to its string
elements, a lone string is wrapped in a singleton, anything else is nothing. -/
def extractStringArrayAttribute (entry : SearchEntry) (attrName : String) :
    Option (List String) :=
  match entryGet entry attrName with
  | some (LdapValue.arr vs) => some (filterStrings vs)
  | some (LdapValue.str s) => some [s]
  | _ => none

/-- `extractAllAttributes`: for each requested attribute, a string value is
kept, an array value is filtered to its string elements, and any other value
adds no key.  The JS record built by assignment is modelled as the list of
key-value pairs in insertion order. -/
def extractAllAttributes (entry : SearchEntry) (attributes : List String) :
    List (String × AttrVal) :=
  match attributes with
  | [] => []
  | attr :: rest =>
    (match entryGet entry attr with
     | some (LdapValue.str v) => [(attr, AttrVal.one v)]
     | some (LdapValue.arr vs) => [(attr, AttrVal.many (filterStrings vs))]
     | _ => []) ++ extractAllAttributes entry rest

/-! ## The directory oracle and the call trace

`authenticateWithLdap` talks to the directory through ldapts `Client`
objects.  The directory's behaviour is an oracle: a bind either succeeds or
rejects with an error (kept as its message, the only part the surrounding
code ever uses), a search returns entries or rejects, and each unbind call
(numbered in call order within one authenticate run) either resolves or
rejects.  Connections are numbered in order of creation: 0 for the
search-phase client, 1 for the re-bind client. -/

structure LdapDirectory where
  bindResult : String → String → Option String
  searchResult : String → String → List String → Except String (List SearchEntry)
  unbindResult : Nat → Option String

/-- One outbound call or log notice of an authenticate run. -/
inductive Ev where
  | openConn : Nat → Ev
  | bind : Nat → String → String → Bool → Ev
  | search : Nat → String → String → List String → Ev
  | unbind : Nat → Bool → Ev
  | info : String → Ev
  | warn : String → Ev
deriving DecidableEq

/-- JS truthiness of an optional string: `undefined` and the empty string are
falsy (the guard at ldapClient.ts line 58 is `config.bindDN &&
config.bindCredentials`). -/
def jsTruthy : Option String → Bool
  | none => false
  | some s => !(s == "")

/-- Step 1 of authenticateWithLdap (lines 57-61): bind as the service account
when both optional fields are truthy, otherwise do nothing. -/
def serviceBindStep (cfg : LdapClientConfig) (dir : LdapDirectory) :
    Except String Unit × List Ev :=
  if jsTruthy cfg.bindDN && jsTruthy cfg.bindCredentials then
    match dir.bindResult (cfg.bindDN.getD "") (cfg.bindCredentials.getD "") with
    | none =>
      (Except.ok (),
       [Ev.info ("Binding to LDAP as service account: " ++ cfg.bindDN.getD ""),
        Ev.bind 0 (cfg.bindDN.getD "") (cfg.bindCredentials.getD "") true])
    | some m =>
      (Except.error m,
       [Ev.info ("Binding to LDAP as service account: " ++ cfg.bindDN.getD ""),
        Ev.bind 0 (cfg.bindDN.getD "") (cfg.bindCredentials.getD "") false])
  else (Except.ok (), [])

/-- Step 3 of authenticateWithLdap (lines 93-102): open a fresh client, bind
as the found user with the submitted password, and release that client in a
`finally` whose rejection is swallowed by `.catch(() => {})`.  A bind
rejection is caught and replaced by the fixed invalid-credentials error; `uc`
is the index of the unbind call this phase performs. -/
def userRebindPhase (username password userDN : String) (dir : LdapDirectory)
    (uc : Nat) : Except String Unit × List Ev :=
  match dir.bindResult userDN password with
  | none =>
    (Except.ok (),
     [Ev.openConn 1, Ev.bind 1 userDN password true,
      Ev.info ("User '" ++ username ++ "' authenticated successfully"),
      Ev.unbind 1 ((dir.unbindResult uc).isNone)])
  | some _ =>
    (Except.error ("Invalid credentials for user '" ++ username ++ "'"),
     [Ev.openConn 1, Ev.bind 1 userDN password false,
      Ev.unbind 1 ((dir.unbindResult uc).isNone)])

/-- Step 4 of authenticateWithLdap (lines 104-114): the assembled record. -/
def buildUserInfo (username : String) (cfg : LdapClientConfig)
    (userEntry : SearchEntry) : LdapUserInfo :=
  { dn := userEntry.dn
    uid := (extractStringAttribute userEntry cfg.usernameAttribute).getD username
    displayName := extractStringAttribute userEntry "displayName"
    email := extractStringAttribute userEntry "mail"
    memberOf := extractStringArrayAttribute userEntry "memberOf"
    attributes := extractAllAttributes userEntry cfg.userAttributes }

/-- The warning of line 84, emitted exactly when `searchEntries.length > 1`,
that is when the entries past the first form a nonempty list. -/
def multiMatchWarn (username : String) (restEntries : List SearchEntry) : List Ev :=
  if restEntries.isEmpty then []
  else [Ev.warn ("Multiple users found for '" ++ username ++ "', using first result")]

/-- The body of the outer `try` of authenticateWithLdap (lines 57-116), after
connection 0 has been created: result, events emitted after the opening
event, and the number of unbind calls made so far (the index the final
cleanup unbind of connection 0 will use). -/
def authBody (username password : String) (cfg : LdapClientConfig)
    (dir : LdapDirectory) : Except String LdapUserInfo × List Ev × Nat :=
  match serviceBindStep cfg dir with
  | (Except.error m, evs) => (Except.error m, evs, 0)
  | (Except.ok _, evs0) =>
    let filter := buildSearchFilter cfg.searchFilter username
    let attrs := cfg.usernameAttribute :: cfg.userAttributes
    let evs1 := evs0 ++
      [Ev.info ("Searching for user in " ++ cfg.searchBase ++ " with filter: " ++ filter),
       Ev.search 0 cfg.searchBase filter attrs]
    match dir.searchResult cfg.searchBase filter attrs with
    | Except.error m => (Except.error m, evs1, 0)
    | Except.ok [] =>
      (Except.error ("User '" ++ username ++ "' not found in LDAP directory"), evs1, 0)
    | Except.ok (userEntry :: restEntries) =>
      let evs2 := evs1 ++ multiMatchWarn username restEntries
      -- line 91: `await client.unbind()` before the privilege change; a
      -- rejection here is NOT caught and escalates
      match dir.unbindResult 0 with
      | some m => (Except.error m, evs2 ++ [Ev.unbind 0 false], 1)
      | none =>
        match userRebindPhase username password userEntry.dn dir 1 with
        | (Except.ok _, evs3) =>
          (Except.ok (buildUserInfo username cfg userEntry),
           evs2 ++ [Ev.unbind 0 true] ++ evs3, 2)
        | (Except.error m, evs3) =>
          (Except.error m, evs2 ++ [Ev.unbind 0 true] ++ evs3, 2)

/-- `authenticateWithLdap` (ldapClient.ts lines 39-120): create connection 0,
run the body, and release connection 0 in the outer `finally`, whose
rejection is swallowed by `.catch(() => {})`. -/
def authenticateWithLdap (username password : String) (cfg : LdapClientConfig)
    (dir : LdapDirectory) : Except String LdapUserInfo × List Ev :=
  match authBody username password cfg dir with
  | (r, evs, uc) =>
    (r, Ev.openConn 0 :: (evs ++ [Ev.unbind 0 ((dir.unbindResult uc).isNone)]))

/-! ## The HTTP handler's error mapping (provider.ts lines 122-174)

`handleCredentialAuth` validates the request body, calls
`authenticateWithLdap`, resolves the Backstage identity, and maps every
exception of either step to one 401 response whose body carries the fixed
name `AuthenticationError` and the error's message. -/

/-- What `resolverContext.signInWithCatalogUser` yields on success. -/
structure BackstageIdentity where
  token : String
  identityRef : String
deriving DecidableEq

/-- The JSON body shapes `handleCredentialAuth` can send. -/
inductive HttpBody where
  | messageOnly : String → HttpBody
  | authError : String → String → HttpBody
  | success : String → Option (List String) → Option String → Option String →
      String → String → HttpBody
deriving DecidableEq

/-- A response: status code and body. -/
structure HttpResponse where
  status : Nat
  body : HttpBody
deriving DecidableEq

/-- `handleCredentialAuth`: the request body's optional `username` and
`password`, the selected config, the directory oracle, and the catalog
resolver (`signInWithCatalogUser`, keyed by the uid; a rejection carries its
message). -/
def handleCredentialAuth (username password : Option String)
    (cfg : LdapClientConfig) (dir : LdapDirectory)
    (resolve : String → Except String BackstageIdentity) : HttpResponse :=
  if !(jsTruthy username && jsTruthy password) then
    { status := 400, body := HttpBody.messageOnly "Missing username or password in request body" }
  else
    match (authenticateWithLdap (username.getD "") (password.getD "") cfg dir).fst with
    | Except.error m => { status := 401, body := HttpBody.authError "AuthenticationError" m }
    | Except.ok info =>
      match resolve info.uid with
      | Except.error m => { status := 401, body := HttpBody.authError "AuthenticationError" m }
      | Except.ok bid =>
        { status := 200,
          body := HttpBody.success info.uid info.memberOf info.email info.displayName
            bid.token bid.identityRef }

/-! ## Event classifiers and basic lemmas -/

/-- Whether an event is a bind request. -/
def isBindEv : Ev → Bool
  | Ev.bind _ _ _ _ => true
  | _ => false

/-- Whether an event is a search request. -/
def isSearchEv : Ev → Bool
  | Ev.search _ _ _ _ => true
  | _ => false

/-- Whether an event is a warning notice. -/
def isWarnEv : Ev → Bool
  | Ev.warn _ => true
  | _ => false

/-- Every event the service-bind step emits is an info notice or a bind on
connection 0 with the configured service credentials. -/
theorem serviceBindStep_events {cfg : LdapClientConfig} {dir : LdapDirectory} {ev : Ev}
    (h : ev ∈ (serviceBindStep cfg dir).snd) :
    (∃ s, ev = Ev.info s) ∨
      ∃ ok, ev = Ev.bind 0 (cfg.bindDN.getD "") (cfg.bindCredentials.getD "") ok := by
  unfold serviceBindStep at h
  by_cases hb : (jsTruthy cfg.bindDN && jsTruthy cfg.bindCredentials) = true
  · rw [if_pos hb] at h
    cases hr : dir.bindResult (cfg.bindDN.getD "") (cfg.bindCredentials.getD "") with
    | none =>
      rw [hr] at h
      simp only [List.mem_cons, List.mem_singleton] at h
      rcases h with h | h | h
      · exact Or.inl ⟨_, h⟩
      · exact Or.inr ⟨true, h⟩
      · cases h
    | some m =>
      rw [hr] at h
      simp only [List.mem_cons, List.mem_singleton] at h
      rcases h with h | h | h
      · exact Or.inl ⟨_, h⟩
      · exact Or.inr ⟨false, h⟩
      · cases h
  · rw [if_neg hb] at h
    cases h

/-- When one of the optional service-bind fields is missing or empty, step 1
does nothing at all. -/
theorem serviceBindStep_skip {cfg : LdapClientConfig} {dir : LdapDirectory}
    (h : (jsTruthy cfg.bindDN && jsTruthy cfg.bindCredentials) = false) :
    serviceBindStep cfg dir = (Except.ok (), []) := by
  unfold serviceBindStep
  rw [if_neg (by simp [h])]

/-! ## Spec-side definitions (written from the spec's words, for comparison) -/

/-- Spec-side reading of `uniqueId` (C2): "value of `usernameAttribute` on the
matched entry" (first element if the directory returned an array), "falling
back to the submitted username" when the attribute is absent or its value is
not a string. -/
def specUniqueId (e : SearchEntry) (attr username : String) : String :=
  match entryGet e attr with
  | some (LdapValue.str s) => s
  | some (LdapValue.arr (LdapAttrElem.str s :: _)) => s
  | _ => username

/-- Spec-side reading of C7: whether the directory returned "a string or
string-sequence value", an array counting only when every element is a
string. -/
def isStringOrStringArray : Option LdapValue → Bool
  | some (LdapValue.str _) => true
  | some (LdapValue.arr vs) =>
    vs.all (fun v => match v with
      | LdapAttrElem.str _ => true
      | LdapAttrElem.nonString => false)
  | _ => false

/-- The raw-attribute value the code keeps for one returned directory value:
a string as itself, an array as its string elements, anything else nothing. -/
def specAttrValue : Option LdapValue → Option AttrVal
  | some (LdapValue.str s) => some (AttrVal.one s)
  | some (LdapValue.arr vs) => some (AttrVal.many (filterStrings vs))
  | _ => none

/-- Whether a run gets past step 2 with at least one match, which is exactly
when the mid-flow `await client.unbind()` of line 91 — the one unbind call
outside a guaranteed-cleanup path — is reached. -/
def reachesRebindPhase (username : String) (cfg : LdapClientConfig)
    (dir : LdapDirectory) : Prop :=
  (serviceBindStep cfg dir).fst = Except.ok () ∧
    ∃ e rest, dir.searchResult cfg.searchBase
        (buildSearchFilter cfg.searchFilter username)
        (cfg.usernameAttribute :: cfg.userAttributes) = Except.ok (e :: rest)

/-- The prefix of a trace before its first search request. -/
def beforeFirstSearch (tr : List Ev) : List Ev :=
  tr.takeWhile (fun ev => !isSearchEv ev)

/-! ## Concrete sample data for the closed instances -/

def sampleEntry : SearchEntry :=
  { dn := "uid=jdoe,ou=users,dc=example,dc=org"
    attrs := [("uid", LdapValue.str "jdoe"),
              ("mail", LdapValue.str "jdoe@example.com"),
              ("displayName", LdapValue.str "John Doe"),
              ("memberOf", LdapValue.str "cn=devs,ou=groups,dc=example,dc=org")] }

def secondEntry : SearchEntry :=
  { dn := "uid=jdoe,ou=external,dc=example,dc=org"
    attrs := [("uid", LdapValue.str "jdoe")] }

def sampleCfg : LdapClientConfig :=
  { url := "ldaps://ldap.example.com:636"
    bindDN := some "cn=service,dc=example,dc=org"
    bindCredentials := some "service-password"
    searchBase := "ou=users,dc=example,dc=org"
    usernameAttribute := "uid"
    searchFilter := "(uid=\x7b\x7busername\x7d\x7d)"
    userAttributes := ["mail", "displayName", "memberOf"]
    tlsRejectUnauthorized := true }

/-- A directory that accepts every bind and returns the one sample entry. -/
def sampleDir : LdapDirectory :=
  { bindResult := fun _ _ => none
    searchResult := fun _ _ _ => Except.ok [sampleEntry]
    unbindResult := fun _ => none }

/-- A directory whose search matches nothing. -/
def emptySearchDir : LdapDirectory :=
  { bindResult := fun _ _ => none
    searchResult := fun _ _ _ => Except.ok []
    unbindResult := fun _ => none }

/-- A directory whose search matches two entries. -/
def multiMatchDir : LdapDirectory :=
  { bindResult := fun _ _ => none
    searchResult := fun _ _ _ => Except.ok [sampleEntry, secondEntry]
    unbindResult := fun _ => none }

/-- A directory that accepts the service bind and rejects the user re-bind
(as the directory server would report a wrong password). -/
def wrongPasswordDir : LdapDirectory :=
  { bindResult := fun dn _ =>
      if dn = "cn=service,dc=example,dc=org" then none else some "InvalidCredentialsError"
    searchResult := fun _ _ _ => Except.ok [sampleEntry]
    unbindResult := fun _ => none }

/-- A directory that rejects the service-account bind itself, with a message
that happens to coincide with the client's invalid-credentials wrapper. -/
def svcBindFailDir : LdapDirectory :=
  { bindResult := fun dn _ =>
      if dn = "cn=service,dc=example,dc=org" then some "Invalid credentials for user 'jdoe'"
      else none
    searchResult := fun _ _ _ => Except.ok [sampleEntry]
    unbindResult := fun _ => none }

/-- A resolver that signs every uid in. -/
def sampleResolve : String → Except String BackstageIdentity :=
  fun uid => Except.ok { token := "backstage-token-123", identityRef := "user:default/" ++ uid }

/-- A config with `bindDN` set but no `bindCredentials`. -/
def halfBindCfg : LdapClientConfig :=
  { sampleCfg with bindCredentials := none }

/-- An entry whose only attribute is an array with no string element (as a
binary `jpegPhoto` would arrive, a `Buffer[]`). -/
def photoEntry : SearchEntry :=
  { dn := "uid=jdoe,ou=users,dc=example,dc=org"
    attrs := [("jpegPhoto", LdapValue.arr [LdapAttrElem.nonString])] }

/-! ## Structural lemmas about the run -/

theorem authenticateWithLdap_fst (username password : String)
    (cfg : LdapClientConfig) (dir : LdapDirectory) :
    (authenticateWithLdap username password cfg dir).fst =
      (authBody username password cfg dir).fst := by
  unfold authenticateWithLdap
  rcases authBody username password cfg dir with ⟨r, evs, uc⟩
  rfl

theorem serviceBindStep_update_unbind (cfg : LdapClientConfig)
    (dir : LdapDirectory) (g : Nat → Option String) :
    serviceBindStep cfg { dir with unbindResult := g } = serviceBindStep cfg dir := rfl

theorem userRebindPhase_fst_update (username password userDN : String)
    (dir : LdapDirectory) (g : Nat → Option String) (uc uc' : Nat) :
    (userRebindPhase username password userDN { dir with unbindResult := g } uc).fst =
      (userRebindPhase username password userDN dir uc').fst := by
  unfold userRebindPhase
  cases hb : dir.bindResult userDN password <;> simp [hb]

theorem userRebindPhase_unbind_mem (username password userDN : String)
    (dir : LdapDirectory) (uc : Nat) :
    Ev.unbind 1 ((dir.unbindResult uc).isNone) ∈
      (userRebindPhase username password userDN dir uc).snd := by
  unfold userRebindPhase
  cases hb : dir.bindResult userDN password <;> simp

theorem userRebindPhase_events {username password userDN : String}
    {dir : LdapDirectory} {uc : Nat} {ev : Ev}
    (h : ev ∈ (userRebindPhase username password userDN dir uc).snd) :
    ev = Ev.openConn 1 ∨ (∃ ok, ev = Ev.bind 1 userDN password ok) ∨
      (∃ s, ev = Ev.info s) ∨ ∃ ok, ev = Ev.unbind 1 ok := by
  unfold userRebindPhase at h
  cases hb : dir.bindResult userDN password with
  | none =>
    rw [hb] at h
    simp only [List.mem_cons, List.not_mem_nil, or_false] at h
    rcases h with h | h | h | h <;> subst h <;> simp
  | some m =>
    rw [hb] at h
    simp only [List.mem_cons, List.not_mem_nil, or_false] at h
    rcases h with h | h | h <;> subst h <;> simp

/-! ## The claims -/

/-- C1: the claim says the filter built by substituting the username escapes
every occurrence of backslash, asterisk, parentheses, NUL and slash and never
contains one of them raw.  The code violates it: the escaped username is
passed to `String.prototype.replace` as a plain string replacement, so the
ECMAScript dollar-substitution patterns apply to it, and the username of a
dollar and a backtick makes the replacement re-insert the part of the
template before the placeholder.  For username `($` + backtick under the
default template, the opening parenthesis of the username is escaped to
`\28`, yet the constructed filter is `(uid=\28(uid=)`, whose substituted
portion holds a raw `(` that the template contributed only once. -/
theorem ldap_filter_dollar_substitution_injection :
    escapeLdapFilter "($`" = "\\28$`" ∧
      buildSearchFilter "(uid=\x7b\x7busername\x7d\x7d)" "($`" = "(uid=\\28(uid=)" ∧
      countChar '(' (buildSearchFilter "(uid=\x7b\x7busername\x7d\x7d)" "($`") = 2 ∧
      countChar '(' "(uid=\x7b\x7busername\x7d\x7d)" = 1 ∧
      countChar '(' (escapeLdapFilter "($`") = 0 := by
  refine ⟨by decide, by decide, by decide, by decide, by decide⟩

/-- C2: when the service bind step succeeds (or is skipped), the search finds
exactly one entry, the pre-rebind close resolves, and the user re-bind with
the submitted password succeeds, the call returns the record built from that
entry: its `dn` is the matched entry's DN and its `uid` is the entry's
username-attribute value (first element of an array), falling back to the
submitted username when absent or not a string. -/
theorem authenticate_single_match_success_record
    (username password : String) (cfg : LdapClientConfig) (dir : LdapDirectory)
    (e : SearchEntry)
    (hsvc : (serviceBindStep cfg dir).fst = Except.ok ())
    (hsearch : dir.searchResult cfg.searchBase
        (buildSearchFilter cfg.searchFilter username)
        (cfg.usernameAttribute :: cfg.userAttributes) = Except.ok [e])
    (hclose : dir.unbindResult 0 = none)
    (hrebind : dir.bindResult e.dn password = none) :
    (authenticateWithLdap username password cfg dir).fst =
        Except.ok (buildUserInfo username cfg e) ∧
      (buildUserInfo username cfg e).dn = e.dn ∧
      (buildUserInfo username cfg e).uid = specUniqueId e cfg.usernameAttribute username := by
  refine ⟨?_, rfl, ?_⟩
  · rcases hs : serviceBindStep cfg dir with ⟨r, evs⟩
    rw [hs] at hsvc
    simp only at hsvc
    subst hsvc
    rw [authenticateWithLdap_fst]
    simp [authBody, hs, hsearch, hclose, userRebindPhase, hrebind]
  · simp only [buildUserInfo, extractStringAttribute, specUniqueId]
    rcases h : entryGet e cfg.usernameAttribute with _ | v
    · simp
    · cases v with
      | str s => simp
      | arr vs =>
        cases vs with
        | nil => simp
        | cons hd tl => cases hd <;> simp
      | other => simp

/-- Closed instance of `authenticate_single_match_success_record` at the
sample config and directory. -/
theorem authenticate_single_match_success_record_witness :
    (authenticateWithLdap "jdoe" "secret" sampleCfg sampleDir).fst =
        Except.ok (buildUserInfo "jdoe" sampleCfg sampleEntry) ∧
      (buildUserInfo "jdoe" sampleCfg sampleEntry).dn = sampleEntry.dn ∧
      (buildUserInfo "jdoe" sampleCfg sampleEntry).uid =
        specUniqueId sampleEntry sampleCfg.usernameAttribute "jdoe" :=
  authenticate_single_match_success_record "jdoe" "secret" sampleCfg sampleDir sampleEntry
    rfl rfl rfl rfl

/-- Classification of the events the body can emit besides the service-bind
step's own: log notices, the search on connection 0, unbind calls, and the
re-bind connection's opening and bind with the submitted password. -/
def tailEvClass (password : String) (ev : Ev) : Prop :=
  (∃ s, ev = Ev.info s) ∨ (∃ s, ev = Ev.warn s) ∨ (∃ b f a, ev = Ev.search 0 b f a) ∨
    (∃ ok, ev = Ev.unbind 0 ok) ∨ ev = Ev.openConn 1 ∨
    (∃ dn ok, ev = Ev.bind 1 dn password ok) ∨ ∃ ok, ev = Ev.unbind 1 ok

theorem multiMatchWarn_events {username : String} {restEntries : List SearchEntry}
    {ev : Ev} (h : ev ∈ multiMatchWarn username restEntries) : ∃ s, ev = Ev.warn s := by
  unfold multiMatchWarn at h
  split at h
  · cases h
  · simp only [List.mem_singleton] at h
    exact ⟨_, h⟩

theorem authBody_events {username password : String} {cfg : LdapClientConfig}
    {dir : LdapDirectory} {ev : Ev}
    (h : ev ∈ (authBody username password cfg dir).snd.fst) :
    ev ∈ (serviceBindStep cfg dir).snd ∨ tailEvClass password ev := by
  rcases hs : serviceBindStep cfg dir with ⟨r, evs⟩
  cases r with
  | error m =>
    simp only [authBody, hs] at h
    exact Or.inl h
  | ok x =>
    cases x
    simp only [authBody, hs] at h
    rcases hsr : dir.searchResult cfg.searchBase
        (buildSearchFilter cfg.searchFilter username)
        (cfg.usernameAttribute :: cfg.userAttributes) with m | entries
    · rw [hsr] at h
      simp only [List.mem_append, List.mem_cons, List.not_mem_nil, or_false] at h
      rcases h with h | h | h
      · exact Or.inl h
      · exact Or.inr (Or.inl ⟨_, h⟩)
      · exact Or.inr (Or.inr (Or.inr (Or.inl ⟨_, _, _, h⟩)))
    · cases entries with
      | nil =>
        rw [hsr] at h
        simp only [List.mem_append, List.mem_cons, List.not_mem_nil, or_false] at h
        rcases h with h | h | h
        · exact Or.inl h
        · exact Or.inr (Or.inl ⟨_, h⟩)
        · exact Or.inr (Or.inr (Or.inr (Or.inl ⟨_, _, _, h⟩)))
      | cons e restEntries =>
        rw [hsr] at h
        rcases hu : dir.unbindResult 0 with _ | m
        · rw [hu] at h
          simp only [List.mem_append, List.mem_cons, List.not_mem_nil, or_false] at h
          rcases hrb : userRebindPhase username password e.dn dir 1 with ⟨rr, evs3⟩
          have htail : ∀ a, a ∈ evs3 → tailEvClass password a := by
            intro a ha
            have ha2 : a ∈ (userRebindPhase username password e.dn dir 1).snd := by
              rw [hrb]
              exact ha
            rcases userRebindPhase_events ha2 with h1 | ⟨ok, h1⟩ | ⟨s, h1⟩ | ⟨ok, h1⟩
            · exact Or.inr (Or.inr (Or.inr (Or.inr (Or.inl h1))))
            · exact Or.inr (Or.inr (Or.inr (Or.inr (Or.inr (Or.inl ⟨_, ok, h1⟩)))))
            · exact Or.inl ⟨s, h1⟩
            · exact Or.inr (Or.inr (Or.inr (Or.inr (Or.inr (Or.inr ⟨ok, h1⟩)))))
          rw [hrb] at h
          cases rr with
          | ok y =>
            cases y
            simp only [List.mem_append, List.mem_cons, List.not_mem_nil, or_false,
              List.mem_singleton] at h
            rcases h with (((h | h | h) | h) | h) | h
            · exact Or.inl h
            · exact Or.inr (Or.inl ⟨_, h⟩)
            · exact Or.inr (Or.inr (Or.inr (Or.inl ⟨_, _, _, h⟩)))
            · rcases multiMatchWarn_events h with ⟨s, h⟩
              exact Or.inr (Or.inr (Or.inl ⟨s, h⟩))
            · exact Or.inr (Or.inr (Or.inr (Or.inr (Or.inl ⟨_, h⟩))))
            · exact Or.inr (htail ev h)
          | error m2 =>
            simp only [List.mem_append, List.mem_cons, List.not_mem_nil, or_false,
              List.mem_singleton] at h
            rcases h with (((h | h | h) | h) | h) | h
            · exact Or.inl h
            · exact Or.inr (Or.inl ⟨_, h⟩)
            · exact Or.inr (Or.inr (Or.inr (Or.inl ⟨_, _, _, h⟩)))
            · rcases multiMatchWarn_events h with ⟨s, h⟩
              exact Or.inr (Or.inr (Or.inl ⟨s, h⟩))
            · exact Or.inr (Or.inr (Or.inr (Or.inr (Or.inl ⟨_, h⟩))))
            · exact Or.inr (htail ev h)
        · rw [hu] at h
          simp only [List.mem_append, List.mem_cons, List.not_mem_nil, or_false,
            List.mem_singleton] at h
          rcases h with ((h | h | h) | h) | h
          · exact Or.inl h
          · exact Or.inr (Or.inl ⟨_, h⟩)
          · exact Or.inr (Or.inr (Or.inr (Or.inl ⟨_, _, _, h⟩)))
          · rcases multiMatchWarn_events h with ⟨s, h⟩
            exact Or.inr (Or.inr (Or.inl ⟨s, h⟩))
          · exact Or.inr (Or.inr (Or.inr (Or.inr (Or.inl ⟨_, h⟩))))

theorem authBody_open1_unbind1 {username password : String} {cfg : LdapClientConfig}
    {dir : LdapDirectory}
    (h : Ev.openConn 1 ∈ (authBody username password cfg dir).snd.fst) :
    ∃ ok, Ev.unbind 1 ok ∈ (authBody username password cfg dir).snd.fst := by
  rcases hs : serviceBindStep cfg dir with ⟨r, evs⟩
  have hnoopen : ∀ a, a ∈ evs → a = Ev.openConn 1 → False := by
    intro a ha he
    have h2 := serviceBindStep_events
      (show a ∈ (serviceBindStep cfg dir).snd by rw [hs]; exact ha)
    rcases h2 with ⟨s, h1⟩ | ⟨ok, h1⟩ <;> subst he <;> exact Ev.noConfusion h1
  cases r with
  | error m =>
    simp only [authBody, hs] at h
    exact (hnoopen _ h rfl).elim
  | ok x =>
    cases x
    simp only [authBody, hs] at h ⊢
    rcases hsr : dir.searchResult cfg.searchBase
        (buildSearchFilter cfg.searchFilter username)
        (cfg.usernameAttribute :: cfg.userAttributes) with m | entries
    · rw [hsr] at h
      simp only [List.mem_append, List.mem_cons, List.not_mem_nil, or_false] at h
      rcases h with h | h | h
      · exact (hnoopen _ h rfl).elim
      · exact Ev.noConfusion h
      · exact Ev.noConfusion h
    · cases entries with
      | nil =>
        rw [hsr] at h
        simp only [List.mem_append, List.mem_cons, List.not_mem_nil, or_false] at h
        rcases h with h | h | h
        · exact (hnoopen _ h rfl).elim
        · exact Ev.noConfusion h
        · exact Ev.noConfusion h
      | cons e restEntries =>
        simp only [hsr] at h ⊢
        rcases hu : dir.unbindResult 0 with _ | m
        · simp only [hu] at h ⊢
          have hmem := userRebindPhase_unbind_mem username password e.dn dir 1
          rcases hrb : userRebindPhase username password e.dn dir 1 with ⟨rr, evs3⟩
          rw [hrb] at hmem
          refine ⟨(dir.unbindResult 1).isNone, ?_⟩
          cases rr with
          | ok y =>
            cases y
            simp only [List.mem_append]
            exact Or.inr hmem
          | error m2 =>
            simp only [List.mem_append]
            exact Or.inr hmem
        · simp only [hu] at h
          simp only [List.mem_append, List.mem_cons, List.not_mem_nil, or_false,
            List.mem_singleton] at h
          rcases h with ((h | h | h) | h) | h
          · exact (hnoopen _ h rfl).elim
          · exact Ev.noConfusion h
          · exact Ev.noConfusion h
          · rcases multiMatchWarn_events h with ⟨s, h1⟩
            exact Ev.noConfusion h1
          · exact Ev.noConfusion h

/-- C3 counterexample: a failed service-account bind is not surfaced as a
distinguishable ConfigurationError.  The code propagates the directory's
error object as-is and `handleCredentialAuth` maps every authenticate failure
to the same 401 `AuthenticationError` response, so a directory whose
service-bind rejection message happens to read like the invalid-credentials
wrapper produces a response identical, field for field, to the one produced
by a failed user re-bind. -/
theorem service_bind_failure_indistinguishable_at_caller :
    handleCredentialAuth (some "jdoe") (some "wrong") sampleCfg svcBindFailDir sampleResolve =
        handleCredentialAuth (some "jdoe") (some "wrong") sampleCfg wrongPasswordDir
          sampleResolve ∧
      handleCredentialAuth (some "jdoe") (some "wrong") sampleCfg svcBindFailDir sampleResolve =
        { status := 401,
          body :=
            HttpBody.authError "AuthenticationError" "Invalid credentials for user 'jdoe'" } := by
  constructor <;> rfl

/-- C3 (amended): when the configured service bind fails, authenticate
rejects with the directory's own error unwrapped (never the fixed
invalid-credentials wrapper text built from the username), but no distinct
ConfigurationError kind exists: the HTTP handler maps this failure to the
same 401 `AuthenticationError` response shape it uses for a failed user
re-bind, carrying only the message. -/
theorem service_bind_failure_propagates_unwrapped
    (username password m : String) (cfg : LdapClientConfig) (dir : LdapDirectory)
    (resolve : String → Except String BackstageIdentity)
    (htruthy : (jsTruthy cfg.bindDN && jsTruthy cfg.bindCredentials) = true)
    (hbind : dir.bindResult (cfg.bindDN.getD "") (cfg.bindCredentials.getD "") = some m)
    (hu : jsTruthy (some username) = true) (hp : jsTruthy (some password) = true) :
    (authenticateWithLdap username password cfg dir).fst = Except.error m ∧
      handleCredentialAuth (some username) (some password) cfg dir resolve =
        { status := 401, body := HttpBody.authError "AuthenticationError" m } := by
  have hs : serviceBindStep cfg dir =
      (Except.error m,
       [Ev.info ("Binding to LDAP as service account: " ++ cfg.bindDN.getD ""),
        Ev.bind 0 (cfg.bindDN.getD "") (cfg.bindCredentials.getD "") false]) := by
    unfold serviceBindStep
    rw [if_pos htruthy, hbind]
  have h1 : (authenticateWithLdap username password cfg dir).fst = Except.error m := by
    rw [authenticateWithLdap_fst]
    simp only [authBody, hs]
  refine ⟨h1, ?_⟩
  unfold handleCredentialAuth
  rw [hu, hp]
  simp only [Bool.and_self, Bool.not_true, Bool.false_eq_true, if_false, Option.getD_some, h1]

/-- Closed instance of `service_bind_failure_propagates_unwrapped` at the
sample config and the directory whose service bind rejects. -/
theorem service_bind_failure_propagates_unwrapped_witness :
    (authenticateWithLdap "jdoe" "wrong" sampleCfg svcBindFailDir).fst =
        Except.error "Invalid credentials for user 'jdoe'" ∧
      handleCredentialAuth (some "jdoe") (some "wrong") sampleCfg svcBindFailDir sampleResolve =
        { status := 401,
          body :=
            HttpBody.authError "AuthenticationError" "Invalid credentials for user 'jdoe'" } :=
  service_bind_failure_propagates_unwrapped "jdoe" "wrong"
    "Invalid credentials for user 'jdoe'" sampleCfg svcBindFailDir sampleResolve
    rfl rfl rfl rfl

/-- C4: a search with zero matches fails with the user-not-found error, and
no re-bind is attempted: the second connection is never opened and every
bind request of the run belongs to the service-bind step. -/
theorem authenticate_zero_matches_user_not_found
    (username password : String) (cfg : LdapClientConfig) (dir : LdapDirectory)
    (hsvc : (serviceBindStep cfg dir).fst = Except.ok ())
    (hsearch : dir.searchResult cfg.searchBase
        (buildSearchFilter cfg.searchFilter username)
        (cfg.usernameAttribute :: cfg.userAttributes) = Except.ok []) :
    (authenticateWithLdap username password cfg dir).fst =
        Except.error ("User '" ++ username ++ "' not found in LDAP directory") ∧
      Ev.openConn 1 ∉ (authenticateWithLdap username password cfg dir).snd ∧
      ∀ ev ∈ (authenticateWithLdap username password cfg dir).snd,
        isBindEv ev = true → ev ∈ (serviceBindStep cfg dir).snd := by
  rcases hs : serviceBindStep cfg dir with ⟨r, evs⟩
  rw [hs] at hsvc
  simp only at hsvc
  subst hsvc
  have hbody : authBody username password cfg dir =
      (Except.error ("User '" ++ username ++ "' not found in LDAP directory"),
       evs ++
         [Ev.info ("Searching for user in " ++ cfg.searchBase ++ " with filter: " ++
            buildSearchFilter cfg.searchFilter username),
          Ev.search 0 cfg.searchBase (buildSearchFilter cfg.searchFilter username)
            (cfg.usernameAttribute :: cfg.userAttributes)], 0) := by
    simp only [authBody, hs, hsearch]
  have htr : authenticateWithLdap username password cfg dir =
      (Except.error ("User '" ++ username ++ "' not found in LDAP directory"),
       Ev.openConn 0 ::
         ((evs ++
           [Ev.info ("Searching for user in " ++ cfg.searchBase ++ " with filter: " ++
              buildSearchFilter cfg.searchFilter username),
            Ev.search 0 cfg.searchBase (buildSearchFilter cfg.searchFilter username)
              (cfg.usernameAttribute :: cfg.userAttributes)]) ++
          [Ev.unbind 0 ((dir.unbindResult 0).isNone)])) := by
    unfold authenticateWithLdap
    rw [hbody]
  refine ⟨by rw [htr], ?_, ?_⟩
  · rw [htr]
    intro h
    simp only [List.mem_cons, List.mem_append, List.not_mem_nil, or_false,
      List.mem_singleton] at h
    rcases h with h | (h | h | h) | h
    · exact absurd h (by decide)
    · have h2 := serviceBindStep_events
        (show Ev.openConn 1 ∈ (serviceBindStep cfg dir).snd by rw [hs]; exact h)
      rcases h2 with ⟨s, h1⟩ | ⟨ok, h1⟩ <;> exact Ev.noConfusion h1
    · exact Ev.noConfusion h
    · exact Ev.noConfusion h
    · exact Ev.noConfusion h
  · rw [htr]
    intro ev hev hbind
    simp only [List.mem_cons, List.mem_append, List.not_mem_nil, or_false,
      List.mem_singleton] at hev
    rcases hev with h | (h | h | h) | h
    · subst h
      exact absurd hbind (by simp [isBindEv])
    · exact h
    · subst h
      exact absurd hbind (by simp [isBindEv])
    · subst h
      exact absurd hbind (by simp [isBindEv])
    · subst h
      exact absurd hbind (by simp [isBindEv])

/-- Closed instance of `authenticate_zero_matches_user_not_found` at the
sample config and the empty-search directory. -/
theorem authenticate_zero_matches_user_not_found_witness :
    (authenticateWithLdap "ghost" "pw" sampleCfg emptySearchDir).fst =
        Except.error ("User '" ++ "ghost" ++ "' not found in LDAP directory") ∧
      Ev.openConn 1 ∉ (authenticateWithLdap "ghost" "pw" sampleCfg emptySearchDir).snd ∧
      ∀ ev ∈ (authenticateWithLdap "ghost" "pw" sampleCfg emptySearchDir).snd,
        isBindEv ev = true → ev ∈ (serviceBindStep sampleCfg emptySearchDir).snd :=
  authenticate_zero_matches_user_not_found "ghost" "pw" sampleCfg emptySearchDir rfl rfl

/-- C5: when the search matched an entry but the re-bind with the submitted
password is rejected by the directory — with any message `m` whatsoever —
authenticate fails with the one fixed invalid-credentials error built from
the username alone (no directory-side sub-reason appears in it, as the
statement holds uniformly in `m`), and the connection opened for the re-bind
is released. -/
theorem authenticate_rebind_failure_uniform_invalid_credentials
    (username password m : String) (cfg : LdapClientConfig) (dir : LdapDirectory)
    (e : SearchEntry) (rest : List SearchEntry)
    (hsvc : (serviceBindStep cfg dir).fst = Except.ok ())
    (hsearch : dir.searchResult cfg.searchBase
        (buildSearchFilter cfg.searchFilter username)
        (cfg.usernameAttribute :: cfg.userAttributes) = Except.ok (e :: rest))
    (hclose : dir.unbindResult 0 = none)
    (hrebind : dir.bindResult e.dn password = some m) :
    (authenticateWithLdap username password cfg dir).fst =
        Except.error ("Invalid credentials for user '" ++ username ++ "'") ∧
      ∃ ok, Ev.unbind 1 ok ∈ (authenticateWithLdap username password cfg dir).snd := by
  rcases hs : serviceBindStep cfg dir with ⟨r, evs⟩
  rw [hs] at hsvc
  simp only at hsvc
  subst hsvc
  constructor
  · rw [authenticateWithLdap_fst]
    simp only [authBody, hs, hsearch, hclose, userRebindPhase, hrebind]
  · refine ⟨(dir.unbindResult 1).isNone, ?_⟩
    unfold authenticateWithLdap
    rcases hb : authBody username password cfg dir with ⟨rr, evs2, uc⟩
    simp only [List.mem_cons, List.mem_append]
    have : Ev.unbind 1 ((dir.unbindResult 1).isNone) ∈
        (authBody username password cfg dir).snd.fst := by
      simp only [authBody, hs, hsearch, hclose, userRebindPhase, hrebind]
      simp
    rw [hb] at this
    exact Or.inr (Or.inl this)

/-- Closed instance of
`authenticate_rebind_failure_uniform_invalid_credentials` at the sample
config and the wrong-password directory. -/
theorem authenticate_rebind_failure_uniform_invalid_credentials_witness :
    (authenticateWithLdap "jdoe" "wrong" sampleCfg wrongPasswordDir).fst =
        Except.error ("Invalid credentials for user '" ++ "jdoe" ++ "'") ∧
      ∃ ok, Ev.unbind 1 ok ∈ (authenticateWithLdap "jdoe" "wrong" sampleCfg wrongPasswordDir).snd :=
  authenticate_rebind_failure_uniform_invalid_credentials "jdoe" "wrong"
    "InvalidCredentialsError" sampleCfg wrongPasswordDir sampleEntry [] rfl rfl rfl rfl

/-- C8: when the search returns more than one entry, the run proceeds with
the first entry only — succeeding with the record built from it — and the
trace carries exactly one warning notice. -/
theorem authenticate_multiple_matches_first_entry_one_warning
    (username password : String) (cfg : LdapClientConfig) (dir : LdapDirectory)
    (e1 e2 : SearchEntry) (rest : List SearchEntry)
    (hsvc : (serviceBindStep cfg dir).fst = Except.ok ())
    (hsearch : dir.searchResult cfg.searchBase
        (buildSearchFilter cfg.searchFilter username)
        (cfg.usernameAttribute :: cfg.userAttributes) = Except.ok (e1 :: e2 :: rest))
    (hclose : dir.unbindResult 0 = none)
    (hrebind : dir.bindResult e1.dn password = none) :
    (authenticateWithLdap username password cfg dir).fst =
        Except.ok (buildUserInfo username cfg e1) ∧
      ((authenticateWithLdap username password cfg dir).snd.filter isWarnEv).length = 1 := by
  rcases hs : serviceBindStep cfg dir with ⟨r, evs⟩
  rw [hs] at hsvc
  simp only at hsvc
  subst hsvc
  have hevsnil : evs.filter isWarnEv = [] := by
    rw [List.filter_eq_nil_iff]
    intro a ha
    have h2 := serviceBindStep_events
      (show a ∈ (serviceBindStep cfg dir).snd by rw [hs]; exact ha)
    rcases h2 with ⟨s, h1⟩ | ⟨ok, h1⟩ <;> subst h1 <;> simp [isWarnEv]
  constructor
  · rw [authenticateWithLdap_fst]
    simp only [authBody, hs, hsearch, hclose, userRebindPhase, hrebind]
  · unfold authenticateWithLdap
    have hbody : authBody username password cfg dir =
        (Except.ok (buildUserInfo username cfg e1),
         ((evs ++
            [Ev.info ("Searching for user in " ++ cfg.searchBase ++ " with filter: " ++
               buildSearchFilter cfg.searchFilter username),
             Ev.search 0 cfg.searchBase (buildSearchFilter cfg.searchFilter username)
               (cfg.usernameAttribute :: cfg.userAttributes)] ++
            multiMatchWarn username (e2 :: rest)) ++ [Ev.unbind 0 true] ++
           [Ev.openConn 1, Ev.bind 1 e1.dn password true,
            Ev.info ("User '" ++ username ++ "' authenticated successfully"),
            Ev.unbind 1 ((dir.unbindResult 1).isNone)]), 2) := by
      simp only [authBody, hs, hsearch, hclose, userRebindPhase, hrebind]
    rw [hbody]
    simp only [multiMatchWarn, List.isEmpty_cons, Bool.false_eq_true, if_false,
      List.filter_append, List.filter_cons, hevsnil, isWarnEv, List.filter_nil]
    simp

/-- Closed instance of
`authenticate_multiple_matches_first_entry_one_warning` at the sample config
and the two-match directory. -/
theorem authenticate_multiple_matches_first_entry_one_warning_witness :
    (authenticateWithLdap "jdoe" "pw" sampleCfg multiMatchDir).fst =
        Except.ok (buildUserInfo "jdoe" sampleCfg sampleEntry) ∧
      ((authenticateWithLdap "jdoe" "pw" sampleCfg multiMatchDir).snd.filter isWarnEv).length =
        1 :=
  authenticate_multiple_matches_first_entry_one_warning "jdoe" "pw" sampleCfg multiMatchDir
    sampleEntry secondEntry [] rfl rfl rfl rfl

/-- C9: when the directory returned `memberOf` as a single string rather than
an array, the successful call's record carries `groupMemberships` as the
one-element sequence holding exactly that string. -/
theorem authenticate_memberOf_single_string_coerced
    (username password s : String) (cfg : LdapClientConfig) (dir : LdapDirectory)
    (e : SearchEntry)
    (hsvc : (serviceBindStep cfg dir).fst = Except.ok ())
    (hsearch : dir.searchResult cfg.searchBase
        (buildSearchFilter cfg.searchFilter username)
        (cfg.usernameAttribute :: cfg.userAttributes) = Except.ok [e])
    (hclose : dir.unbindResult 0 = none)
    (hrebind : dir.bindResult e.dn password = none)
    (hmem : entryGet e "memberOf" = some (LdapValue.str s)) :
    (authenticateWithLdap username password cfg dir).fst =
        Except.ok (buildUserInfo username cfg e) ∧
      (buildUserInfo username cfg e).memberOf = some [s] := by
  rcases hs : serviceBindStep cfg dir with ⟨r, evs⟩
  rw [hs] at hsvc
  simp only at hsvc
  subst hsvc
  constructor
  · rw [authenticateWithLdap_fst]
    simp only [authBody, hs, hsearch, hclose, userRebindPhase, hrebind]
  · simp only [buildUserInfo, extractStringArrayAttribute, hmem]

/-- Closed instance of `authenticate_memberOf_single_string_coerced` at the
sample entry, whose `memberOf` is the single string of its group DN. -/
theorem authenticate_memberOf_single_string_coerced_witness :
    (authenticateWithLdap "jdoe" "secret" sampleCfg sampleDir).fst =
        Except.ok (buildUserInfo "jdoe" sampleCfg sampleEntry) ∧
      (buildUserInfo "jdoe" sampleCfg sampleEntry).memberOf =
        some ["cn=devs,ou=groups,dc=example,dc=org"] :=
  authenticate_memberOf_single_string_coerced "jdoe" "secret"
    "cn=devs,ou=groups,dc=example,dc=org" sampleCfg sampleDir sampleEntry
    rfl rfl rfl rfl rfl

/-- Shape of the body's trace when the service bind is skipped: it starts
with the search log notice and the search request, whatever the directory
then answers. -/
theorem authBody_skip_shape {username password : String} {cfg : LdapClientConfig}
    {dir : LdapDirectory}
    (h : (jsTruthy cfg.bindDN && jsTruthy cfg.bindCredentials) = false) :
    ∃ tail, (authBody username password cfg dir).snd.fst =
      Ev.info ("Searching for user in " ++ cfg.searchBase ++ " with filter: " ++
          buildSearchFilter cfg.searchFilter username) ::
        Ev.search 0 cfg.searchBase (buildSearchFilter cfg.searchFilter username)
          (cfg.usernameAttribute :: cfg.userAttributes) :: tail := by
  have hs := @serviceBindStep_skip cfg dir h
  simp only [authBody, hs]
  rcases hsr : dir.searchResult cfg.searchBase
      (buildSearchFilter cfg.searchFilter username)
      (cfg.usernameAttribute :: cfg.userAttributes) with m | entries
  · exact ⟨[], by simp⟩
  · cases entries with
    | nil => exact ⟨[], by simp⟩
    | cons e restEntries =>
      rcases hu : dir.unbindResult 0 with _ | m
      · rcases hrb : userRebindPhase username password e.dn dir 1 with ⟨rr, evs3⟩
        cases rr with
        | ok y =>
          cases y
          exact ⟨multiMatchWarn username restEntries ++ Ev.unbind 0 true :: evs3,
            by simp only [hrb]; simp [List.append_assoc]⟩
        | error m2 =>
          exact ⟨multiMatchWarn username restEntries ++ Ev.unbind 0 true :: evs3,
            by simp only [hrb]; simp [List.append_assoc]⟩
      · exact ⟨multiMatchWarn username restEntries ++ [Ev.unbind 0 false],
          by simp [List.append_assoc]⟩

/-- C10: when `bindDN` and `bindCredentials` are not both present (in the JS
truthiness sense), the run performs no service bind at all — no bind request
on connection 0 ever appears in the trace — yet it proceeds without error to
the search on the unauthenticated connection: the search request is in the
trace, and the trace's prefix before the first search request holds no bind
of any kind. -/
theorem authenticate_partial_bind_config_skips_service_bind
    (username password : String) (cfg : LdapClientConfig) (dir : LdapDirectory)
    (h : (jsTruthy cfg.bindDN && jsTruthy cfg.bindCredentials) = false) :
    (∀ dn pw ok, Ev.bind 0 dn pw ok ∉ (authenticateWithLdap username password cfg dir).snd) ∧
      Ev.search 0 cfg.searchBase (buildSearchFilter cfg.searchFilter username)
          (cfg.usernameAttribute :: cfg.userAttributes) ∈
        (authenticateWithLdap username password cfg dir).snd ∧
      ∀ ev ∈ beforeFirstSearch (authenticateWithLdap username password cfg dir).snd,
        isBindEv ev = false := by
  have hs := @serviceBindStep_skip cfg dir h
  obtain ⟨tail, hshape⟩ := @authBody_skip_shape username password cfg dir h
  rcases hb : authBody username password cfg dir with ⟨r, evs2, uc⟩
  rw [hb] at hshape
  simp only at hshape
  subst hshape
  have htr : authenticateWithLdap username password cfg dir =
      (r, Ev.openConn 0 ::
        ((Ev.info ("Searching for user in " ++ cfg.searchBase ++ " with filter: " ++
            buildSearchFilter cfg.searchFilter username) ::
          Ev.search 0 cfg.searchBase (buildSearchFilter cfg.searchFilter username)
            (cfg.usernameAttribute :: cfg.userAttributes) :: tail) ++
         [Ev.unbind 0 ((dir.unbindResult uc).isNone)])) := by
    unfold authenticateWithLdap
    rw [hb]
  refine ⟨?_, ?_, ?_⟩
  · intro dn pw ok hmem
    rw [htr] at hmem
    simp only [List.mem_cons, List.mem_append, List.not_mem_nil, or_false,
      List.mem_singleton] at hmem
    rcases hmem with h1 | (h1 | h1 | h1) | h1
    · exact Ev.noConfusion h1
    · exact Ev.noConfusion h1
    · exact Ev.noConfusion h1
    · have h2 := authBody_events (show Ev.bind 0 dn pw ok ∈
          (authBody username password cfg dir).snd.fst by
        rw [hb]
        simp only [List.mem_cons]
        exact Or.inr (Or.inr h1))
      rw [hs] at h2
      rcases h2 with h2 | h2
      · cases h2
      · rcases h2 with ⟨s, h3⟩ | ⟨s, h3⟩ | ⟨b, f, a, h3⟩ | ⟨ok2, h3⟩ | h3 | ⟨dn2, ok2, h3⟩ |
          ⟨ok2, h3⟩ <;> first
          | exact Ev.noConfusion h3
          | simp at h3
    · exact Ev.noConfusion h1
  · rw [htr]
    simp
  · rw [htr]
    intro ev hev
    simp only [beforeFirstSearch] at hev
    simp [List.takeWhile_cons, isSearchEv] at hev
    rcases hev with h1 | h1 <;> subst h1 <;> simp [isBindEv]

/-- Closed instance of `authenticate_partial_bind_config_skips_service_bind`
at the config that sets `bindDN` but no `bindCredentials`. -/
theorem authenticate_partial_bind_config_skips_service_bind_witness :
    (∀ dn pw ok, Ev.bind 0 dn pw ok ∉
        (authenticateWithLdap "jdoe" "pw" halfBindCfg sampleDir).snd) ∧
      Ev.search 0 halfBindCfg.searchBase (buildSearchFilter halfBindCfg.searchFilter "jdoe")
          (halfBindCfg.usernameAttribute :: halfBindCfg.userAttributes) ∈
        (authenticateWithLdap "jdoe" "pw" halfBindCfg sampleDir).snd ∧
      ∀ ev ∈ beforeFirstSearch (authenticateWithLdap "jdoe" "pw" halfBindCfg sampleDir).snd,
        isBindEv ev = false :=
  authenticate_partial_bind_config_skips_service_bind "jdoe" "pw" halfBindCfg sampleDir rfl

/-- C6: resource discipline of the run.  First, on every execution path,
every connection that was opened has an unbind request in the trace —
including the first connection when any later step fails, since its release
sits in the outer `finally`.  Second and third, the releases in the
guaranteed-cleanup paths swallow their failures: the call's result never
depends on the outcome of any unbind call beyond the first one (the
cleanup releases of both connections are exactly the unbind calls after the
mid-flow close of line 91), and on every path that never reaches that
mid-flow close the result is independent of all unbind outcomes. -/
theorem authenticate_connections_released
    (username password : String) (cfg : LdapClientConfig) (dir : LdapDirectory) :
    (∀ c, Ev.openConn c ∈ (authenticateWithLdap username password cfg dir).snd →
        ∃ ok, Ev.unbind c ok ∈ (authenticateWithLdap username password cfg dir).snd) ∧
      (∀ g : Nat → Option String, g 0 = dir.unbindResult 0 →
        (authenticateWithLdap username password cfg { dir with unbindResult := g }).fst =
          (authenticateWithLdap username password cfg dir).fst) ∧
      (∀ g : Nat → Option String, ¬reachesRebindPhase username cfg dir →
        (authenticateWithLdap username password cfg { dir with unbindResult := g }).fst =
          (authenticateWithLdap username password cfg dir).fst) := by
  refine ⟨?_, ?_, ?_⟩
  · intro c h
    rcases hb : authBody username password cfg dir with ⟨r, evs, uc⟩
    have htr : authenticateWithLdap username password cfg dir =
        (r, Ev.openConn 0 :: (evs ++ [Ev.unbind 0 ((dir.unbindResult uc).isNone)])) := by
      unfold authenticateWithLdap
      rw [hb]
    rw [htr] at h
    simp only [List.mem_cons, List.mem_append, List.not_mem_nil, or_false,
      List.mem_singleton] at h
    rcases h with h | h | h
    · have hc : c = 0 := by
        injection h
      subst hc
      exact ⟨(dir.unbindResult uc).isNone, by rw [htr]; simp⟩
    · have hmem : Ev.openConn c ∈ (authBody username password cfg dir).snd.fst := by
        rw [hb]
        exact h
      have h2 := authBody_events hmem
      rcases h2 with h2 | h2
      · rcases serviceBindStep_events h2 with ⟨s, h3⟩ | ⟨ok, h3⟩ <;> exact Ev.noConfusion h3
      · have hc : c = 1 := by
          rcases h2 with ⟨s, h3⟩ | ⟨s, h3⟩ | ⟨b, f, at2, h3⟩ | ⟨ok, h3⟩ | h3 |
            ⟨dn, ok, h3⟩ | ⟨ok, h3⟩ <;> first
            | exact Ev.noConfusion h3
            | (injection h3)
        subst hc
        obtain ⟨ok, hok⟩ := authBody_open1_unbind1 hmem
        rw [hb] at hok
        exact ⟨ok, by rw [htr]; simp only [List.mem_cons, List.mem_append]; right; left; exact hok⟩
    · exact Ev.noConfusion h
  · intro g hg
    rw [authenticateWithLdap_fst, authenticateWithLdap_fst]
    have hsu := serviceBindStep_update_unbind cfg dir g
    rcases hs : serviceBindStep cfg dir with ⟨r, evs⟩
    rw [hs] at hsu
    cases r with
    | error m =>
      simp only [authBody, hs, hsu]
    | ok x =>
      cases x
      simp only [authBody, hs, hsu]
      rcases hsr : dir.searchResult cfg.searchBase
          (buildSearchFilter cfg.searchFilter username)
          (cfg.usernameAttribute :: cfg.userAttributes) with m | entries
      · simp only [hsr]
      · cases entries with
        | nil => simp only [hsr]
        | cons e restEntries =>
          simp only [hsr, hg]
          rcases hu : dir.unbindResult 0 with _ | m
          · simp only [hu]
            have hfst := userRebindPhase_fst_update username password e.dn dir g 1 1
            rcases hrb2 : userRebindPhase username password e.dn
                { dir with unbindResult := g } 1 with ⟨rr2, evs4⟩
            rcases hrb : userRebindPhase username password e.dn dir 1 with ⟨rr, evs3⟩
            rw [hrb2, hrb] at hfst
            simp only at hfst
            subst hfst
            cases rr2 with
            | ok y =>
              cases y
              rfl
            | error m2 =>
              rfl
          · simp only [hu]
  · intro g hnot
    rw [authenticateWithLdap_fst, authenticateWithLdap_fst]
    have hsu := serviceBindStep_update_unbind cfg dir g
    rcases hs : serviceBindStep cfg dir with ⟨r, evs⟩
    rw [hs] at hsu
    cases r with
    | error m =>
      simp only [authBody, hs, hsu]
    | ok x =>
      cases x
      simp only [authBody, hs, hsu]
      rcases hsr : dir.searchResult cfg.searchBase
          (buildSearchFilter cfg.searchFilter username)
          (cfg.usernameAttribute :: cfg.userAttributes) with m | entries
      · simp only [hsr]
      · cases entries with
        | nil => simp only [hsr]
        | cons e restEntries =>
          exact absurd ⟨by rw [hs], ⟨e, restEntries, hsr⟩⟩ hnot

/-- Closed instance of `authenticate_connections_released`: the sample run
releases its first connection, and replacing every unbind outcome leaves the
result unchanged. -/
theorem authenticate_connections_released_witness :
    (∃ ok, Ev.unbind 0 ok ∈ (authenticateWithLdap "jdoe" "secret" sampleCfg sampleDir).snd) ∧
      (authenticateWithLdap "jdoe" "secret" sampleCfg
          { sampleDir with unbindResult := fun _ => none }).fst =
        (authenticateWithLdap "jdoe" "secret" sampleCfg sampleDir).fst := by
  have h := authenticate_connections_released "jdoe" "secret" sampleCfg sampleDir
  exact ⟨h.1 0 (by decide), h.2.1 (fun _ => none) rfl⟩

/-- Lookup characterization of `extractAllAttributes`: a requested name maps
to the value the code keeps for the directory's answer, and an unrequested
name is absent. -/
theorem extractAllAttributes_lookup (entry : SearchEntry) (attrNames : List String)
    (a : String) :
    List.lookup a (extractAllAttributes entry attrNames) =
      if a ∈ attrNames then specAttrValue (entryGet entry a) else none := by
  induction attrNames with
  | nil => simp [extractAllAttributes]
  | cons b rest ih =>
    by_cases hab : a = b
    · subst hab
      rcases hv : entryGet entry a with _ | v
      · simp only [extractAllAttributes, hv, List.nil_append, ih, specAttrValue]
        simp
      · cases v with
        | str s =>
          simp [extractAllAttributes, hv, List.lookup, specAttrValue]
        | arr vs =>
          simp [extractAllAttributes, hv, List.lookup, specAttrValue]
        | other =>
          simp only [extractAllAttributes, hv, List.nil_append, ih, specAttrValue]
          simp
    · have hne : (a == b) = false := beq_eq_false_iff_ne.mpr hab
      rcases hv : entryGet entry b with _ | v
      · simp only [extractAllAttributes, hv, List.nil_append, ih]
        simp [List.mem_cons, hab]
      · cases v with
        | str s =>
          simp only [extractAllAttributes, hv, List.cons_append, List.nil_append,
            List.lookup, hne, ih]
          simp [List.mem_cons, hab]
        | arr vs =>
          simp only [extractAllAttributes, hv, List.cons_append, List.nil_append,
            List.lookup, hne, ih]
          simp [List.mem_cons, hab]
        | other =>
          simp only [extractAllAttributes, hv, List.nil_append, ih]
          simp [List.mem_cons, hab]

/-- C7 counterexample: for an entry whose requested attribute came back as an
array holding no string (a Buffer array, as a binary `jpegPhoto` does), the
key IS present in the raw-attribute map — bound to the empty list — although
the directory's value is not a string or string-sequence value, refuting the
claimed present-iff-string-or-array-of-strings equivalence at this input. -/
theorem raw_attribute_nonstring_array_present :
    ¬((List.lookup "jpegPhoto" (extractAllAttributes photoEntry ["jpegPhoto"])).isSome =
          true ↔
        "jpegPhoto" ∈ ["jpegPhoto"] ∧
          isStringOrStringArray (entryGet photoEntry "jpegPhoto") = true) ∧
      List.lookup "jpegPhoto" (extractAllAttributes photoEntry ["jpegPhoto"]) =
        some (AttrVal.many []) := by
  constructor
  · decide
  · rfl

/-- C7 (amended): in a successful call's raw-attribute map, a requested name
is present exactly when the directory returned a string or an array for it
(an array is kept filtered to its string elements, so an all-non-string
array yields the key bound to the empty sequence); values of any other type
are dropped silently, and the kept value is `specAttrValue` of the
directory's answer. -/
theorem extractAllAttributes_presence (entry : SearchEntry)
    (attrNames : List String) (a : String) :
    ((List.lookup a (extractAllAttributes entry attrNames)).isSome = true ↔
        a ∈ attrNames ∧ (specAttrValue (entryGet entry a)).isSome = true) ∧
      (a ∈ attrNames →
        List.lookup a (extractAllAttributes entry attrNames) =
          specAttrValue (entryGet entry a)) := by
  constructor
  · by_cases hmem : a ∈ attrNames <;> simp [extractAllAttributes_lookup, hmem]
  · intro hmem
    simp [extractAllAttributes_lookup, hmem]
